import Mathlib

/-
Verification of the transaction-analysis pipeline of eth-wallet-tracker
(src/eth_wallet_tracker/utils.py, main.py, models.py, config.py) against its
natural-language specification.

Modelling conventions (shallow embedding):
* Python strings are lists of characters (`PyStr`).
* Python `decimal.Decimal` values are modelled by `Dec`: a coefficient and a
  decimal exponent, the value being `c * 10 ^ e`.  Construction from strings,
  addition, subtraction and multiplication are exact; division and `quantize`
  model the default decimal context with 28 significant digits of precision
  (division rounds half-even to 28 significant digits; `quantize` signals
  `InvalidOperation` when the resulting coefficient needs more than 28 digits).
  Context rounding of addition and multiplication (which only matters beyond
  28 significant digits) is idealized as exact.
* Python `float` intermediates (`float(amount)` and `math.log10` inside
  `is_round_number`, the ETH price) are idealized as exact arithmetic on the
  underlying value; theorems touching them carry hypotheses restricting the
  magnitude to a range where no float overflow/underflow occurs.
* Uncaught Python exceptions are modelled by `PyRes.exn`; functions whose
  Python counterparts can only raise exceptions that their callers do not
  catch return `PyRes`.  `Option` models Python's `None`.
* `datetime.fromtimestamp` is modelled as the integer timestamp itself, with
  an approximate validity window for the out-of-range errors it raises.
-/

set_option maxRecDepth 40000

/-- Python strings, modelled as lists of characters. -/
abbrev PyStr := List Char

/-- Result of running a Python fragment: a value, or an uncaught exception. -/
inductive PyRes (α : Type) where
  | ok (a : α)
  | exn
deriving DecidableEq, Repr

instance : Monad PyRes where
  pure := PyRes.ok
  bind m f := match m with
    | .ok a => f a
    | .exn => .exn

/-- Value of a Python `decimal.Decimal`: coefficient `c` times `10 ^ e`.
(`Decimal` stores exactly a sign, a coefficient and an exponent; the string
representation depends on `c` and `e`, not only on the value.) -/
structure Dec where
  c : ℤ
  e : ℤ
deriving DecidableEq, Repr

/-- The rational value of a `Dec`. -/
def Dec.toRat (a : Dec) : ℚ :=
  if 0 ≤ a.e then ((a.c * 10 ^ a.e.toNat : ℤ) : ℚ)
  else Rat.divInt a.c (10 ^ (-a.e).toNat)

/-- Both coefficients rescaled to the smaller of the two exponents, so that
the two decimals can be compared/combined by integer arithmetic. -/
def Dec.scaledPair (a b : Dec) : ℤ × ℤ :=
  let m := min a.e b.e
  (a.c * 10 ^ (a.e - m).toNat, b.c * 10 ^ (b.e - m).toNat)

/-- Strict value comparison of two decimals. -/
def Dec.ltB (a b : Dec) : Bool :=
  let p := Dec.scaledPair a b
  p.1 < p.2

/-- Non-strict value comparison of two decimals. -/
def Dec.leB (a b : Dec) : Bool :=
  let p := Dec.scaledPair a b
  p.1 ≤ p.2

/-- Decimal addition (exponent of the result is the smaller input exponent,
as in Python's decimal addition; exact, see the header note on precision). -/
def Dec.add (a b : Dec) : Dec :=
  let m := min a.e b.e
  let p := Dec.scaledPair a b
  ⟨p.1 + p.2, m⟩

/-- Decimal subtraction. -/
def Dec.sub (a b : Dec) : Dec :=
  let m := min a.e b.e
  let p := Dec.scaledPair a b
  ⟨p.1 - p.2, m⟩

/-- Decimal multiplication (exact; see the header note on precision). -/
def Dec.mul (a b : Dec) : Dec :=
  ⟨a.c * b.c, a.e + b.e⟩

/-- Whether the value is strictly positive (the coefficient carries the sign). -/
def Dec.isPos (a : Dec) : Bool := 0 < a.c

/-- Number of decimal digits of a natural number (1 for 0); fuel-based so that
it evaluates by kernel reduction. -/
def digitLenAux : ℕ → ℕ → ℕ
  | 0, _ => 1
  | f + 1, n => if n < 10 then 1 else 1 + digitLenAux f (n / 10)

/-- Number of decimal digits of `n` (1 for 0). -/
def digitLen (n : ℕ) : ℕ := digitLenAux n n

/-- Integer division rounded half-to-even (the rounding used by the default
decimal context). -/
def roundHalfEvenDiv (m p : ℕ) : ℕ :=
  let q := m / p
  let r := m % p
  if 2 * r < p then q
  else if p < 2 * r then q + 1
  else if q % 2 = 0 then q else q + 1

/-- Division of a decimal by `10 ^ d`, following Python decimal division in the
default context: the exact quotient if it fits in 28 significant digits
(a coefficient below `10 ^ 28` always does), otherwise the quotient rounded
half-even to 28 significant digits.  Value-faithful: when the coefficient has
more than 28 digits only because of trailing zeros, the rounding below is
exact, matching Python's exact result. -/
def divDecPow10 (a : Dec) (d : ℕ) : Dec :=
  let m := a.c.natAbs
  if m < 10 ^ 28 then ⟨a.c, a.e - d⟩
  else
    let t := digitLen m - 28
    let m2 := roundHalfEvenDiv m (10 ^ t)
    ⟨if a.c < 0 then -(m2 : ℤ) else (m2 : ℤ), a.e - d + t⟩

/-- Python `x.quantize(Decimal('0.000001'), rounding=ROUND_DOWN)`: the value
truncated toward zero at 6 fractional digits; signals `InvalidOperation`
(modelled as an exception, since the source catches only `ValueError`,
`TypeError` and `ZeroDivisionError`) when the resulting coefficient needs
more than the context's 28 digits, i.e. is at least `10 ^ 28`. -/
def quantTrunc6 (a : Dec) : PyRes Dec :=
  let cnew : ℤ :=
    if 0 ≤ a.e + 6 then a.c * 10 ^ (a.e + 6).toNat
    else Int.tdiv a.c (10 ^ (-(a.e + 6)).toNat)
  if 10 ^ 28 ≤ cnew.natAbs then .exn else .ok ⟨cnew, -6⟩

/-- utils.format_token_amount: divide the amount by `10 ^ decimals` and
truncate to 6 fractional digits; `decimals == 0` returns the amount
unchanged.  The `except` clause catches only `ValueError`, `TypeError` and
`ZeroDivisionError`, so the `InvalidOperation` signalled by `quantize`
propagates to the caller (`PyRes.exn`). -/
def format_token_amount (amount : Dec) (decimals : ℕ) : PyRes Dec :=
  if decimals = 0 then .ok amount
  else quantTrunc6 (divDecPow10 amount decimals)

/-- Decimal digits of `n`, most significant first (`"0"` for 0). -/
def natDigits (n : ℕ) : List Char := Nat.toDigits 10 n

/-- Python `str` of a `Decimal`, following the to-scientific-string rules of
the decimal specification: plain notation when the exponent is at most 0 and
the adjusted exponent is at least -6, scientific notation otherwise. -/
def decStr (a : Dec) : PyStr :=
  let ds := natDigits a.c.natAbs
  let n : ℤ := ds.length
  let adj : ℤ := a.e + n - 1
  let body : PyStr :=
    if a.e ≤ 0 ∧ -6 ≤ adj then
      if a.e = 0 then ds
      else if 0 < n + a.e then
        ds.take (n + a.e).toNat ++ '.' :: ds.drop (n + a.e).toNat
      else '0' :: '.' :: (List.replicate (-(n + a.e)).toNat '0' ++ ds)
    else
      ds.take 1 ++ (if ds.length ≤ 1 then [] else '.' :: ds.drop 1) ++
        'E' :: (if adj < 0 then '-' else '+') :: natDigits adj.natAbs
  if a.c < 0 then '-' :: body else body

/-- Whether `s` ends with `pat`. -/
def strEndsWith (s pat : PyStr) : Bool := pat.reverse.isPrefixOf s.reverse

/-- Whether the string starts with the two characters `0x` (Python
`startswith('0x')`, case-sensitive). -/
def hasHexMark (s : PyStr) : Bool :=
  match s with
  | a :: b :: _ => a == '0' && b == 'x'
  | _ => false

/-- The string with a leading literal `0x` removed, if present. -/
def stripHexBody (s : PyStr) : PyStr :=
  if hasHexMark s then s.drop 2 else s

/-- Whether the character is a hexadecimal digit (`0-9`, `a-f`, `A-F`),
phrased via character codes. -/
def hexDigitB (ch : Char) : Bool :=
  (48 ≤ ch.toNat && ch.toNat ≤ 57) ||
  (97 ≤ ch.toNat && ch.toNat ≤ 102) ||
  (65 ≤ ch.toNat && ch.toNat ≤ 70)

/-- Body accepted by `re.match(r'^[0-9a-fA-F]{40}$', body)`: either exactly
40 hex digits, or —because `$` also matches just before one trailing
newline— 40 hex digits followed by a single `'\n'`. -/
def hexBody40 (b : PyStr) : Bool :=
  (b.length == 40 && b.all hexDigitB) ||
  (b.length == 41 && b.getLast? == some '\n' && (b.take 40).all hexDigitB)

/-- utils.is_valid_ethereum_address. -/
def is_valid_ethereum_address (s : PyStr) : Bool :=
  if s == [] then false
  else hexBody40 (stripHexBody s)

/-- Python `str.lower` restricted to ASCII letters (the only case-folding
relevant to hexadecimal address strings). -/
def pyLowerChar (ch : Char) : Char :=
  if 65 ≤ ch.toNat ∧ ch.toNat ≤ 90 then Char.ofNat (ch.toNat + 32) else ch

/-- utils.normalize_address: lower-case and ensure a `0x` prefix; empty input
maps to the empty string. -/
def normalize_address (s : PyStr) : PyStr :=
  if s == [] then []
  else
    let l := s.map pyLowerChar
    if hasHexMark l then l else '0' :: 'x' :: l

/-- The `special_addresses` list of utils.is_likely_contract. -/
def special_addresses : List PyStr :=
  [("0x0000000000000000000000000000000000000000").toList,
   ("0x000000000000000000000000000000000000dead").toList,
   ("0x0000000000000000000000000000000000000001").toList,
   ("0x0000000000000000000000000000000000000002").toList,
   ("0x0000000000000000000000000000000000000003").toList,
   ("0x0000000000000000000000000000000000000004").toList,
   ("0x0000000000000000000000000000000000000005").toList,
   ("0x0000000000000000000000000000000000000006").toList,
   ("0x0000000000000000000000000000000000000007").toList,
   ("0x0000000000000000000000000000000000000008").toList,
   ("0x0000000000000000000000000000000000000009").toList]

/-- The `known_contracts` list of utils.is_likely_contract. -/
def known_contracts : List PyStr :=
  [("0x7a250d5630b4cf539739df2c5dacb4c659f2488d").toList,
   ("0x68b3465833fb72a70ecdf485e0e4c7bd8665fc45").toList,
   ("0xe592427a0aece92de3edee1f18e0157c05861564").toList,
   ("0x3fc91a3afd70395cd496c647d5a6cc9d4b2b7fad").toList,
   ("0x1111111254eeb25477b68fb85ed929f73a960582").toList,
   ("0x11111254369792b2ca5d084ab5eea397ca8fa48b").toList,
   ("0xdef1c0ded9bec7f1a1670819833240f027b25eff").toList,
   ("0x881d40237659c251811cec9c364ef91dc08d300c").toList,
   ("0x6b175474e89094c44da98b954eedeac495271d0f").toList,
   ("0xa0b86a33e6441e3c6cdeaf9bf464c44c78a1f0e9").toList,
   ("0x3f5ce5fbfe3e9af3971dd833d26ba9b5c936f0be").toList,
   ("0xd551234ae421e3bcba99a0da6d736074f22192ff").toList,
   ("0x564286362092d8e7936f0549571a803b203aaced").toList,
   ("0xc02aaa39b223fe8d0a0e5c4f27ead9083c756cc2").toList,
   ("0x1e0049783f008a0085193e00003d00cd54003c71").toList,
   ("0x00000000006c3852cbef3e08e8df289169ede581").toList]

/-- utils.is_likely_contract: normalize, reject invalid addresses, then check
the fixed address lists and the structural patterns. -/
def is_likely_contract (address : PyStr) : Bool :=
  let a := normalize_address address
  if a == [] || !(is_valid_ethereum_address a) then false
  else if a ∈ special_addresses then true
  else if a ∈ known_contracts then true
  else
    let body := stripHexBody a
    if body.dedup.length ≤ 4 then true
    else if strEndsWith body (['0', '0', '0', '0', '0']) then true
    else if (['0', '0', '0', '0', '0']).isPrefixOf body then true
    else false

/-- Decides `|value a - m| < 1/1000` for an integer `m` by exact integer
arithmetic (the source compares `float(amount)` with the magnitude; exact
arithmetic is the idealization of that float comparison). -/
def nearIntThousandth (a : Dec) (m : ℤ) : Bool :=
  if 0 ≤ a.e then a.c * 10 ^ a.e.toNat == m
  else
    let f := (-a.e).toNat
    (1000 * a.c - 1000 * m * 10 ^ f).natAbs < 10 ^ f

/-- The `common_amounts` list of utils.is_round_number (note `25000`, and the
absence of `20000000` and `200000000`). -/
def common_amounts : List ℤ :=
  [100, 200, 500, 1000, 2000, 5000, 10000, 20000, 25000,
   50000, 100000, 200000, 500000, 1000000, 2000000, 5000000,
   10000000, 50000000, 100000000, 500000000, 1000000000]

/-- Decides `10 ^ (1000 n - 1) < (p/q) ^ 1000 < 10 ^ (1000 n + 1)` by integer
arithmetic; for positive `p/q` this is exactly `|log10 (p/q) - n| < 1/1000`
(raise `10 ^ (n ± 1/1000) ` to the 1000th power). -/
def powBandChk (p q : ℕ) (n : ℤ) : Bool :=
  let A := p ^ 1000
  let B := q ^ 1000
  let lo : Bool :=
    if 0 ≤ 1000 * n - 1 then B * 10 ^ (1000 * n - 1).toNat < A
    else B < A * 10 ^ (1 - 1000 * n).toNat
  let hi : Bool :=
    if 0 ≤ 1000 * n + 1 then A < B * 10 ^ (1000 * n + 1).toNat
    else A * 10 ^ (-(1000 * n + 1)).toNat < B
  lo && hi

/-- Decides whether the base-10 logarithm of the (positive) value is within
1/1000 of an integer.  Writing the value as `p/q`, any such integer lies
within 1 of `digitLen p - digitLen q`, so checking the three candidates is
exhaustive.  This idealizes the source's `abs(log10(x) - round(log10(x))) <
0.001` on floats as exact real arithmetic. -/
def log10NearIntDec (a : Dec) : Bool :=
  if a.c ≤ 0 then false
  else
    let p : ℕ := if 0 ≤ a.e then a.c.natAbs * 10 ^ a.e.toNat else a.c.natAbs
    let q : ℕ := if 0 ≤ a.e then 1 else 10 ^ (-a.e).toNat
    let d : ℤ := (digitLen p : ℤ) - digitLen q
    powBandChk p q (d - 1) || powBandChk p q d || powBandChk p q (d + 1)

/-- utils.is_round_number: non-positive amounts are never round; otherwise
check, in the source's order: 5 or more trailing zeros in the decimal
string, closeness to one of the `common_amounts`, base-10 logarithm close to
an integer, 4 or more trailing nines. -/
def is_round_number (amount : Dec) : Bool :=
  if amount.c ≤ 0 then false
  else
    let s := decStr amount
    if strEndsWith s (['0', '0', '0', '0', '0', '0']) ||
       strEndsWith s (['0', '0', '0', '0', '0']) then true
    else if common_amounts.any (fun m => nearIntThousandth amount m) then true
    else if log10NearIntDec amount then true
    else if strEndsWith s (['9', '9', '9', '9']) ||
            strEndsWith s (['9', '9', '9', '9', '9']) then true
    else false

/-- Whether the character is an ASCII digit. -/
def pyDigit (ch : Char) : Bool := 48 ≤ ch.toNat && ch.toNat ≤ 57

/-- Value of a string of ASCII digits. -/
def digitsToNat (ds : List Char) : ℕ :=
  ds.foldl (fun acc ch => 10 * acc + (ch.toNat - 48)) 0

/-- Python `int(s)` on the plain-integer subset of its syntax: an optional
sign followed by digits.  Returns `none` (a caught `ValueError`) otherwise. -/
def pyIntOfString (s : PyStr) : Option ℤ :=
  match s with
  | '-' :: r => if r ≠ [] ∧ r.all pyDigit then some (-(digitsToNat r : ℤ)) else none
  | '+' :: r => if r ≠ [] ∧ r.all pyDigit then some ((digitsToNat r : ℤ)) else none
  | r => if r ≠ [] ∧ r.all pyDigit then some ((digitsToNat r : ℤ)) else none

/-- Python `Decimal(s)` on the plain-decimal subset of its syntax: an optional
sign, an integer part and an optional fractional part, with at least one
digit.  Returns `none` when the string does not parse (in Python that raises
`InvalidOperation`, which the callers in this code base do not catch). -/
def pyDecimalOfString (s : PyStr) : Option Dec :=
  let sgnRest : Bool × PyStr :=
    match s with
    | '-' :: r => (true, r)
    | '+' :: r => (false, r)
    | r => (false, r)
  let sgn := sgnRest.1
  let rest := sgnRest.2
  let ip := rest.takeWhile pyDigit
  match rest.drop ip.length with
  | [] =>
    if ip = [] then none
    else some ⟨if sgn then -(digitsToNat ip : ℤ) else (digitsToNat ip : ℤ), 0⟩
  | '.' :: fp =>
    if fp.all pyDigit ∧ (ip ≠ [] ∨ fp ≠ []) then
      some ⟨if sgn then -(digitsToNat (ip ++ fp) : ℤ) else (digitsToNat (ip ++ fp) : ℤ),
            -(fp.length : ℤ)⟩
    else none
  | _ => none

/-- utils.wei_to_ether: `Decimal(wei) / Decimal('1000000000000000000')`.  The
`except` clause catches only `ValueError`, `TypeError` and
`ZeroDivisionError`; an unparseable string raises `InvalidOperation`, which
propagates (`PyRes.exn`). -/
def wei_to_ether (wei : PyStr) : PyRes Dec :=
  match pyDecimalOfString wei with
  | some d => .ok (divDecPow10 d 18)
  | none => .exn

/-- utils.estimate_transaction_cost_usd.  `not gas_used` is true for `None`
and for 0; `not gas_price` is true for `None` and the empty string; the ETH
price check is `eth_price_usd <= 0`.  Otherwise the cost is
`wei_to_ether(gas_price) * Decimal(gas_used) * Decimal(str(eth_price_usd))`;
the price is modelled directly as the decimal `Decimal(str(...))` yields. -/
def estimate_transaction_cost_usd (gas_used : Option ℤ) (gas_price : Option PyStr)
    (eth_price_usd : Dec) : PyRes (Option Dec) :=
  if (match gas_used with | none => true | some n => n == 0) ||
     (match gas_price with | none => true | some s => s == []) ||
     (eth_price_usd.c ≤ 0) then .ok none
  else
    match gas_price with
    | none => .ok none
    | some s =>
      match wei_to_ether s with
      | .exn => .exn
      | .ok gpe =>
        let gu : ℤ := match gas_used with | some n => n | none => 0
        .ok (some ((gpe.mul ⟨gu, 0⟩).mul eth_price_usd))

/-- Direction of a grouped transfer record (the strings `'in'` / `'out'`). -/
inductive Direction where
  | din
  | dout
deriving DecidableEq, Repr

/-- models.WalletTransaction. -/
structure WalletTransaction where
  wallet_address : PyStr
  tx_hash : PyStr
  block_number : ℤ
  timestamp : ℤ
  token_amount : Dec
  token_amount_raw : PyStr
  direction : Direction
  from_address : PyStr
  to_address : PyStr
  gas_used : Option ℤ
  gas_price : Option PyStr
deriving DecidableEq, Repr

/-- models.WalletAnalysis. -/
structure WalletAnalysis where
  wallet_address : PyStr
  first_transaction : WalletTransaction
  total_received : Dec
  total_sent : Dec
  net_position : Dec
  transaction_count : ℕ
  estimated_usd_value : Option Dec
  is_likely_buyer : Bool
  is_likely_airdrop : Bool
deriving DecidableEq, Repr

/-- The analysis-relevant part of config.Config: `min_token_amount` is the
decimal `Decimal(str(config.min_token_amount))` that the analyzer compares
against. -/
structure Config where
  max_early_wallets : ℕ
  min_token_amount : Dec
deriving DecidableEq, Repr

/-- models.TokenAnalysis (the token descriptor and the wall-clock analysis
date, which no claim mentions, are omitted). -/
structure TokenAnalysis where
  total_transactions : ℕ
  unique_wallets : ℕ
  earliest_wallets : List WalletAnalysis
deriving DecidableEq, Repr

/-- One raw Etherscan transfer row: a string-keyed mapping, each field present
or absent. -/
structure RawTx where
  timeStamp : Option PyStr
  value : Option PyStr
  hash : Option PyStr
  blockNumber : Option PyStr
  fromAddr : Option PyStr
  toAddr : Option PyStr
  gasUsed : Option PyStr
  gasPrice : Option PyStr
deriving DecidableEq, Repr

/-- One iteration of the parsing loop of utils.parse_etherscan_transactions:
`ok none` means the row is skipped (a caught, logged error), `exn` an
uncaught exception (`decimal.InvalidOperation` is not among the caught
classes).  `datetime.fromtimestamp` out-of-range errors are caught; its
validity window is modelled approximately (it is platform/timezone
dependent). -/
def parseRow (decimals : ℕ) (tx : RawTx) : PyRes (Option WalletTransaction) :=
  match tx.timeStamp, tx.value, tx.hash, tx.blockNumber, tx.fromAddr, tx.toAddr with
  | some ts, some v, some h, some bn, some fa, some ta =>
    match pyIntOfString ts with
    | none => .ok none
    | some tsi =>
      if tsi < -62135596800 ∨ 253402300799 < tsi then .ok none
      else
        match pyDecimalOfString v with
        | none => .exn
        | some dv =>
          match format_token_amount dv decimals with
          | .exn => .exn
          | .ok amt =>
            let fn := normalize_address fa
            let tn := normalize_address ta
            if !(is_valid_ethereum_address fn) || !(is_valid_ethereum_address tn) then .ok none
            else
              match pyIntOfString bn with
              | none => .ok none
              | some bni =>
                match tx.gasUsed with
                | some g =>
                  if g ≠ [] then
                    match pyIntOfString g with
                    | none => .ok none
                    | some gi =>
                      .ok (some ⟨tn, h, bni, tsi, amt, v, .din, fn, tn, some gi, tx.gasPrice⟩)
                  else .ok (some ⟨tn, h, bni, tsi, amt, v, .din, fn, tn, none, tx.gasPrice⟩)
                | none => .ok (some ⟨tn, h, bni, tsi, amt, v, .din, fn, tn, none, tx.gasPrice⟩)
  | _, _, _, _, _, _ => .ok none

/-- The row loop of utils.parse_etherscan_transactions, accumulating accepted
rows in order. -/
def parseLoop (decimals : ℕ) : List RawTx → List WalletTransaction → PyRes (List WalletTransaction)
  | [], acc => .ok acc
  | r :: rest, acc =>
    match parseRow decimals r with
    | .exn => .exn
    | .ok none => parseLoop decimals rest acc
    | .ok (some t) => parseLoop decimals rest (acc ++ [t])

/-- utils.parse_etherscan_transactions. -/
def parse_etherscan_transactions (raws : List RawTx) (decimals : ℕ) :
    PyRes (List WalletTransaction) :=
  parseLoop decimals raws []

/-- The recipient-side deep copy made by utils.group_transactions_by_wallet:
`copy.deepcopy(tx)` with `wallet_address` set to the recipient and direction
`'in'`. -/
def recipientCopy (tx : WalletTransaction) : WalletTransaction :=
  { tx with wallet_address := tx.to_address, direction := .din }

/-- The sender-side record constructed field by field by
utils.group_transactions_by_wallet (direction `'out'`). -/
def senderCopy (tx : WalletTransaction) : WalletTransaction :=
  { wallet_address := tx.from_address, tx_hash := tx.tx_hash,
    block_number := tx.block_number, timestamp := tx.timestamp,
    token_amount := tx.token_amount, token_amount_raw := tx.token_amount_raw,
    direction := .dout, from_address := tx.from_address,
    to_address := tx.to_address, gas_used := tx.gas_used,
    gas_price := tx.gas_price }

/-- The `(dict key, record)` appends performed by one iteration of the loop of
utils.group_transactions_by_wallet: one inbound record for the recipient,
and one outbound record for the sender exactly when the sender is not a
likely contract. -/
def walletEmits (tx : WalletTransaction) : List (PyStr × WalletTransaction) :=
  (tx.to_address, recipientCopy tx) ::
    (if is_likely_contract tx.from_address then [] else [(tx.from_address, senderCopy tx)])

/-- utils.group_transactions_by_wallet, as the ordered sequence of
`(key, value)` appends to the `defaultdict(list)`. -/
def group_transactions_by_wallet (txs : List WalletTransaction) :
    List (PyStr × WalletTransaction) :=
  txs.foldl (fun acc tx => acc ++ walletEmits tx) []

/-- Keys of the dictionary in Python insertion order (first appearance). -/
def dictKeys (ems : List (PyStr × WalletTransaction)) : List PyStr :=
  ems.foldl (fun ks kv => if kv.1 ∈ ks then ks else ks ++ [kv.1]) []

/-- The list stored under key `k`: all values appended for `k`, in order. -/
def dictGet (ems : List (PyStr × WalletTransaction)) (k : PyStr) : List WalletTransaction :=
  (ems.filter (fun kv => kv.1 == k)).map Prod.snd

/-- Ordering of transactions by block number (the `key=lambda x:
x.block_number` sort of the analyzer). -/
def blockLe (a b : WalletTransaction) : Prop := a.block_number ≤ b.block_number

instance : DecidableRel blockLe := fun a b =>
  inferInstanceAs (Decidable (a.block_number ≤ b.block_number))

/-- utils.analyze_wallet_transactions.  Python's stable `list.sort` is
modelled by insertion sort (any two stable sorts by the same key agree).
Totals are accumulated in iteration order; the wallet is dropped when a
config is given and the total received is below the configured minimum. -/
def analyze_wallet_transactions (wallet_address : PyStr)
    (transactions : List WalletTransaction) (config : Option Config) :
    Option WalletAnalysis :=
  if transactions = [] then none
  else
    match List.insertionSort blockLe transactions with
    | [] => none
    | first :: rest =>
      let sorted := first :: rest
      let totals := sorted.foldl
        (fun (p : Dec × Dec) t =>
          match t.direction with
          | .din => (Dec.add p.1 t.token_amount, p.2)
          | .dout => (p.1, Dec.add p.2 t.token_amount))
        (⟨0, 0⟩, ⟨0, 0⟩)
      let total_received := totals.1
      let total_sent := totals.2
      if (match config with
          | some cfg => Dec.ltB total_received cfg.min_token_amount
          | none => false) then none
      else
        let airdrop := sorted.length == 1 && first.direction == .din &&
          is_likely_contract first.from_address && is_round_number total_received
        let buyer := !airdrop && Dec.isPos total_received &&
          (!(is_round_number total_received) || 1 < sorted.length ||
           (sorted.length == 1 && !(is_likely_contract first.from_address)))
        some { wallet_address := wallet_address, first_transaction := first,
               total_received := total_received, total_sent := total_sent,
               net_position := Dec.sub total_received total_sent,
               transaction_count := sorted.length,
               estimated_usd_value := none,
               is_likely_buyer := buyer, is_likely_airdrop := airdrop }

/-- Truthiness of the optional `gas_used` integer (`None` and `0` are falsy). -/
def gasTruthyInt : Option ℤ → Bool
  | none => false
  | some n => !(n == 0)

/-- Truthiness of the optional `gas_price` string (`None` and `''` are falsy). -/
def gasTruthyStr : Option PyStr → Bool
  | none => false
  | some s => !(s == [])

/-- The per-wallet loop of main.analyze_token_interactions: stop as soon as
`max_early_wallets` analyses have been collected, analyze each wallet,
re-check the minimum, and estimate the first transaction's USD cost when the
gas fields are truthy and the ETH price is positive. -/
def walletLoop (cfg : Config) (eth : Dec) :
    List (PyStr × List WalletTransaction) → List WalletAnalysis →
    PyRes (List WalletAnalysis)
  | [], acc => .ok acc
  | (w, txs) :: rest, acc =>
    if cfg.max_early_wallets ≤ acc.length then .ok acc
    else
      match analyze_wallet_transactions w txs (some cfg) with
      | none => walletLoop cfg eth rest acc
      | some a =>
        if Dec.leB cfg.min_token_amount a.total_received then
          if gasTruthyInt a.first_transaction.gas_used &&
             gasTruthyStr a.first_transaction.gas_price && Dec.isPos eth then
            match estimate_transaction_cost_usd a.first_transaction.gas_used
                a.first_transaction.gas_price eth with
            | .exn => .exn
            | .ok v => walletLoop cfg eth rest (acc ++ [{ a with estimated_usd_value := v }])
          else walletLoop cfg eth rest (acc ++ [a])
        else walletLoop cfg eth rest acc

/-- Ordering of wallet analyses by the block number of the first transaction
(the final ranking key). -/
def waLe (a b : WalletAnalysis) : Prop :=
  a.first_transaction.block_number ≤ b.first_transaction.block_number

instance : DecidableRel waLe := fun a b =>
  inferInstanceAs (Decidable (a.first_transaction.block_number ≤ b.first_transaction.block_number))

instance : IsTotal WalletAnalysis waLe :=
  ⟨fun a b => le_total a.first_transaction.block_number b.first_transaction.block_number⟩

instance : IsTrans WalletAnalysis waLe :=
  ⟨fun _ _ _ hab hbc => le_trans hab hbc⟩

/-- main.analyze_token_interactions, as a function of the fetched raw rows,
the token's decimal precision, the fetched ETH price and the configuration:
empty fetch short-circuits to an empty report; otherwise parse, group,
run the wallet loop, sort by first-transaction block number (stable sort,
modelled by insertion sort) and truncate. -/
def analyze_token_interactions (raws : List RawTx) (decimals : ℕ) (eth : Dec)
    (cfg : Config) : PyRes TokenAnalysis :=
  if raws = [] then .ok ⟨0, 0, []⟩
  else
    match parse_etherscan_transactions raws decimals with
    | .exn => .exn
    | .ok txs =>
      let ems := group_transactions_by_wallet txs
      let keys := dictKeys ems
      match walletLoop cfg eth (keys.map (fun k => (k, dictGet ems k))) [] with
      | .exn => .exn
      | .ok was =>
        .ok ⟨txs.length, keys.length,
             (List.insertionSort waLe was).take cfg.max_early_wallets⟩

/-- Heap model of grouping for the aliasing claim: `store` is the object
heap (the input records occupy addresses `0 .. txs.length - 1`), `ems` the
emitted `(key, address)` pairs; each emitted record is a freshly allocated
object, as `copy.deepcopy` and the field-by-field construction are. -/
structure GroupSt where
  store : List WalletTransaction
  ems : List (PyStr × ℕ)
deriving DecidableEq, Repr

/-- One grouping iteration in the heap model: allocate the recipient copy,
then the sender record when the sender is not a likely contract. -/
def groupStep (st : GroupSt) (tx : WalletTransaction) : GroupSt :=
  let st1 : GroupSt :=
    ⟨st.store ++ [recipientCopy tx], st.ems ++ [(tx.to_address, st.store.length)]⟩
  if is_likely_contract tx.from_address then st1
  else ⟨st1.store ++ [senderCopy tx], st1.ems ++ [(tx.from_address, st1.store.length)]⟩

/-- utils.group_transactions_by_wallet in the heap model. -/
def group_transactions_with_store (txs : List WalletTransaction) : GroupSt :=
  txs.foldl groupStep ⟨txs, []⟩

/-- The wallets that qualify for the report: grouped wallets whose analysis
succeeds with a total received at or above the configured minimum (the
claim's "analyzed wallets", before any truncation). -/
def qualifyingAnalyses (txs : List WalletTransaction) (cfg : Config) : List WalletAnalysis :=
  (dictKeys (group_transactions_by_wallet txs)).filterMap (fun w =>
    match analyze_wallet_transactions w (dictGet (group_transactions_by_wallet txs) w)
        (some cfg) with
    | some a => if Dec.leB cfg.min_token_amount a.total_received then some a else none
    | none => none)

/-- The exclusion part of claim C1, as a boolean on a whole run: whenever the
run succeeds, every qualifying wallet absent from the report has a
first-transaction block number at least that of every reported wallet. -/
def report_keeps_earliest (raws : List RawTx) (decimals : ℕ) (eth : Dec)
    (cfg : Config) : Bool :=
  match parse_etherscan_transactions raws decimals,
        analyze_token_interactions raws decimals eth cfg with
  | .ok txs, .ok rep =>
    (qualifyingAnalyses txs cfg).all (fun q =>
      !(rep.earliest_wallets.all (fun a => !(a.wallet_address == q.wallet_address))) ||
      rep.earliest_wallets.all (fun a =>
        a.first_transaction.block_number ≤ q.first_transaction.block_number))
  | _, _ => true

/-- The claim's reading of address validity (claim C10): empty strings are
invalid, and otherwise the body after an optional literal `0x` prefix must
be exactly 40 hexadecimal characters. -/
def spec_valid_address_claimed (s : PyStr) : Bool :=
  let b := if hasHexMark s then s.drop 2 else s
  !(s == []) && b.length == 40 && b.all hexDigitB

/-- The body of `s` after an optional case-insensitive `0x` prefix. -/
def ciStripBody (s : PyStr) : PyStr :=
  match s with
  | a :: b :: rest => if a = '0' ∧ (b = 'x' ∨ b = 'X') then rest else s
  | _ => s

/-- The round magnitudes named by claim C8: 100 through 1,000,000,000 in a
1-2-5 progression. -/
def claimed_round_magnitudes : List ℤ :=
  [100, 200, 500, 1000, 2000, 5000, 10000, 20000, 50000,
   100000, 200000, 500000, 1000000, 2000000, 5000000,
   10000000, 20000000, 50000000, 100000000, 200000000, 500000000, 1000000000]

/-- Claim C8's round-number predicate, as stated: positive, and trailing
zeros, or within 1/1000 of a 1-2-5 magnitude, or log10 within 1/1000 of an
integer, or trailing nines. -/
def spec_round_number_claimed (a : Dec) : Bool :=
  Dec.isPos a &&
  (strEndsWith (decStr a) (['0', '0', '0', '0', '0']) ||
   claimed_round_magnitudes.any (fun m => nearIntThousandth a m) ||
   log10NearIntDec a ||
   strEndsWith (decStr a) (['9', '9', '9', '9']))

/-- Claim C8 amended: the same predicate but over the code's actual magnitude
list (`common_amounts`). -/
def spec_round_number_amended (a : Dec) : Bool :=
  Dec.isPos a &&
  (strEndsWith (decStr a) (['0', '0', '0', '0', '0']) ||
   common_amounts.any (fun m => nearIntThousandth a m) ||
   log10NearIntDec a ||
   strEndsWith (decStr a) (['9', '9', '9', '9']))

/-- Range hypothesis under which the float idealization inside
`is_round_number` is sound: the value is non-positive (the code returns
before any float is computed) or its magnitude lies well inside the range of
IEEE doubles, `10 ^ -300 ≤ |v| ≤ 10 ^ 300`. -/
def floatSafe (a : Dec) : Bool :=
  a.c ≤ 0 ||
  ((if a.e ≤ -300 then 10 ^ ((-300 : ℤ) - a.e).toNat ≤ a.c.natAbs
    else 1 ≤ a.c.natAbs * 10 ^ (a.e - (-300 : ℤ)).toNat) &&
   (if a.e ≤ 300 then a.c.natAbs ≤ 10 ^ ((300 : ℤ) - a.e).toNat
    else a.c.natAbs * 10 ^ (a.e - (300 : ℤ)).toNat ≤ 1))

/-- Truncation of a rational toward zero at 6 fractional digits (the
specified meaning of scaling for non-negative raw amounts). -/
def truncSixFrac (q : ℚ) : ℚ := (⌊q * 10 ^ 6⌋₊ : ℚ) / 10 ^ 6

/-- A Uniswap V2 router address (in the `known_contracts` list). -/
def uniswapRouter : PyStr := ("0x7a250d5630b4cf539739df2c5dacb4c659f2488d").toList

/-- A valid wallet address that matches no contract pattern. -/
def eoaAddrA : PyStr := ("0x1234567890abcdef1234567890abcdef12345678").toList

/-- A second valid wallet address that matches no contract pattern. -/
def eoaAddrB : PyStr := ("0xabcdef1234567890abcdef1234567890abcdef12").toList

/-- Run used to refute the exclusion part of claim C1: wallet A's only
transfer is at block 100 and appears first in the fetched list, wallet B's
only transfer is at block 50; both transfers come from a router, so only the
two recipient wallets are grouped. -/
def c1raws : List RawTx :=
  [⟨some (("1000").toList), some (("5").toList), some (("h1").toList),
    some (("100").toList), some uniswapRouter, some eoaAddrA, none, none⟩,
   ⟨some (("1000").toList), some (("5").toList), some (("h2").toList),
    some (("50").toList), some uniswapRouter, some eoaAddrB, none, none⟩]

/-- Configuration for the C1 run: keep at most one wallet, no minimum. -/
def c1cfg : Config := ⟨1, ⟨0, 0⟩⟩

/-- A string that ends with a pattern also ends with any pattern whose
reverse is a prefix of the former's reverse. -/
theorem strEndsWith_stronger {s p q : PyStr} (hpq : p.reverse <+: q.reverse)
    (h : strEndsWith s q = true) : strEndsWith s p = true := by
  unfold strEndsWith at *
  rw [ List.isPrefixOf_iff_prefix] at *
  exact hpq.trans h

/-- Round-trip of `Char.ofNat` on the ASCII lowercase-letter range. -/
theorem charOfNat_toNat_lower (n : ℕ) (h1 : 97 ≤ n) (h2 : n ≤ 122) :
    (Char.ofNat n).toNat = n := by
  interval_cases n <;> decide

/-- The function `pyLowerChar` either fixes its argument or shifts an ASCII uppercase
letter down by 32. -/
theorem pyLowerChar_spec (c : Char) :
    pyLowerChar c = c ∨
    (65 ≤ c.toNat ∧ c.toNat ≤ 90 ∧ (pyLowerChar c).toNat = c.toNat + 32) := by
  unfold pyLowerChar
  split_ifs with h
  · exact Or.inr ⟨h.1, h.2, charOfNat_toNat_lower _ (by omega) (by omega)⟩
  · exact Or.inl rfl

/-- Lower-casing hits a character with code outside both the uppercase and
the lowercase letter ranges only if the input already is that character. -/
theorem pyLowerChar_eq_nonletter (c d : Char)
    (hd1 : ¬(97 ≤ d.toNat ∧ d.toNat ≤ 122)) (hd2 : ¬(65 ≤ d.toNat ∧ d.toNat ≤ 90)) :
    pyLowerChar c = d ↔ c = d := by
  constructor
  · intro h
    rcases pyLowerChar_spec c with h0 | ⟨ha, hb, hc⟩
    · rw [← h0, h]
    · exfalso
      have := congrArg Char.toNat h
      rw [hc] at this
      omega
  · intro h
    subst h
    rcases pyLowerChar_spec c with h0 | ⟨ha, hb, hc⟩
    · exact h0
    · omega

/-- Lower-casing yields the letter x exactly for inputs x and X. -/
theorem pyLowerChar_eq_x (c : Char) : pyLowerChar c = 'x' ↔ c = 'x' ∨ c = 'X' := by
  constructor
  · intro h
    rcases pyLowerChar_spec c with h0 | ⟨ha, hb, hc⟩
    · exact Or.inl (by rw [← h0, h])
    · right
      have htn := congrArg Char.toNat h
      rw [hc] at htn
      have hc88 : c.toNat = 88 := by
        have h120 : c.toNat + 32 = 120 := htn
        omega
      rw [← Char.ofNat_toNat c, hc88]
  · rintro (h | h) <;> subst h <;> decide

/-- Lower-casing preserves hex-digit-ness. -/
theorem hexDigitB_pyLowerChar (c : Char) : hexDigitB (pyLowerChar c) = hexDigitB c := by
  rcases pyLowerChar_spec c with h0 | ⟨ha, hb, hc⟩
  · rw [h0]
  · unfold hexDigitB
    rw [hc]
    refine Bool.eq_iff_iff.mpr ?_
    simp only [Bool.or_eq_true, Bool.and_eq_true, decide_eq_true_eq]
    omega

/-- All-hex-digit checks are invariant under lower-casing. -/
theorem all_hex_map_lower (l : PyStr) :
    (l.map pyLowerChar).all hexDigitB = l.all hexDigitB := by
  induction l with
  | nil => rfl
  | cons c t ih => simp [List.all_cons, hexDigitB_pyLowerChar, ih]

/-- The validator's regex body check is invariant under lower-casing. -/
theorem hexBody40_map_lower (b : PyStr) : hexBody40 (b.map pyLowerChar) = hexBody40 b := by
  unfold hexBody40
  rw [List.length_map, all_hex_map_lower, List.getLast?_map, ← List.map_take,
    all_hex_map_lower]
  have hlast : (Option.map pyLowerChar b.getLast? == some '\n') =
      (b.getLast? == some '\n') := by
    cases b.getLast? with
    | none => rfl
    | some c =>
      show ((some (pyLowerChar c) : Option Char) == some '\n') = (some c == some '\n')
      refine Bool.eq_iff_iff.mpr ?_
      simp only [beq_iff_eq, Option.some.injEq]
      exact pyLowerChar_eq_nonletter c '\n' (by decide) (by decide)
  rw [hlast]

/-- Validity of a nonempty string unfolds to the regex body check. -/
theorem valid_cons (c : Char) (l : PyStr) :
    is_valid_ethereum_address (c :: l) = hexBody40 (stripHexBody (c :: l)) := rfl

/-- For nonempty input, `normalize_address` lower-cases and then prepends
`0x` unless the lower-cased string already starts with it. -/
theorem normalize_address_eq (s : PyStr) (hs : ¬ s = []) :
    normalize_address s =
      if hasHexMark (s.map pyLowerChar) then s.map pyLowerChar
      else '0' :: 'x' :: s.map pyLowerChar := by
  unfold normalize_address
  have hsb : (s == []) = false := by
    simpa using hs
  simp only [hsb, Bool.false_eq_true, if_false]

/-- After normalization, the validator inspects exactly the body behind an
optional case-insensitive `0x` prefix of the input, lower-cased. -/
theorem valid_normalize_eq_ciBody (s : PyStr) (hs : ¬ s = []) :
    is_valid_ethereum_address (normalize_address s) = hexBody40 (ciStripBody s) := by
  rw [normalize_address_eq s hs]
  rcases s with _ | ⟨a, tail⟩
  · exact absurd rfl hs
  rcases tail with _ | ⟨b, rest⟩
  · have hm : hasHexMark ([a].map pyLowerChar) = false := rfl
    rw [hm]
    simp only [Bool.false_eq_true, if_false]
    rw [show ('0' :: 'x' :: [a].map pyLowerChar) = '0' :: ('x' :: [a].map pyLowerChar) from rfl,
      valid_cons]
    rw [show stripHexBody ('0' :: 'x' :: [a].map pyLowerChar) = [a].map pyLowerChar from rfl]
    rw [hexBody40_map_lower]
    rfl
  · by_cases hcond : a = '0' ∧ (b = 'x' ∨ b = 'X')
    · have hm : hasHexMark ((a :: b :: rest).map pyLowerChar) = true := by
        have h0 : pyLowerChar a = '0' := by
          rw [pyLowerChar_eq_nonletter a '0' (by decide) (by decide)]
          exact hcond.1
        have hx : pyLowerChar b = 'x' := (pyLowerChar_eq_x b).mpr hcond.2
        show (pyLowerChar a == '0' && pyLowerChar b == 'x') = true
        rw [h0, hx]
        rfl
      rw [hm]
      simp only [if_true]
      rw [show ((a :: b :: rest).map pyLowerChar) =
            pyLowerChar a :: pyLowerChar b :: rest.map pyLowerChar from rfl, valid_cons]
      unfold stripHexBody
      rw [show hasHexMark (pyLowerChar a :: pyLowerChar b :: rest.map pyLowerChar) = true from hm]
      simp only [if_true]
      rw [show (pyLowerChar a :: pyLowerChar b :: rest.map pyLowerChar).drop 2 =
            rest.map pyLowerChar from rfl]
      rw [hexBody40_map_lower]
      rw [show ciStripBody (a :: b :: rest) =
            (if a = '0' ∧ (b = 'x' ∨ b = 'X') then rest else a :: b :: rest) from rfl,
        if_pos hcond]
    · have hm : hasHexMark ((a :: b :: rest).map pyLowerChar) = false := by
        refine Bool.eq_false_iff.mpr ?_
        intro hcontra
        have hcontra2 : (pyLowerChar a == '0' && pyLowerChar b == 'x') = true := hcontra
        rw [Bool.and_eq_true, beq_iff_eq, beq_iff_eq] at hcontra2
        exact hcond ⟨(pyLowerChar_eq_nonletter a '0' (by decide) (by decide)).mp hcontra2.1,
                     (pyLowerChar_eq_x b).mp hcontra2.2⟩
      rw [hm]
      simp only [Bool.false_eq_true, if_false]
      rw [show ('0' :: 'x' :: (a :: b :: rest).map pyLowerChar) =
            '0' :: ('x' :: (a :: b :: rest).map pyLowerChar) from rfl, valid_cons]
      rw [show stripHexBody ('0' :: 'x' :: (a :: b :: rest).map pyLowerChar) =
            (a :: b :: rest).map pyLowerChar from rfl]
      rw [hexBody40_map_lower]
      rw [show ciStripBody (a :: b :: rest) =
            (if a = '0' ∧ (b = 'x' ∨ b = 'X') then rest else a :: b :: rest) from rfl,
        if_neg hcond]

/-- C9: for the empty transfer-history input the analysis returns, without
raising an exception, a report with `total_transactions = 0`,
`unique_wallets = 0` and an empty `earliest_wallets` list. -/
theorem C9_empty_history_empty_report (decimals : ℕ) (eth : Dec) (cfg : Config) :
    analyze_token_interactions [] decimals eth cfg = .ok ⟨0, 0, []⟩ := rfl

/-- C10 counterexample: the input `0X` followed by 40 zeros is not a valid
address in the claim's sense (its body after an optional literal `0x` prefix
is not 40 hex characters, since the `0X` prefix is not stripped and `X` is
not a hex digit), yet `is_likely_contract` returns true for it: the source
normalizes first, so the lower-cased string becomes the null address. -/
theorem C10_counterexample_upperX_prefix :
    spec_valid_address_claimed (("0X0000000000000000000000000000000000000000").toList) = false ∧
    is_likely_contract (("0X0000000000000000000000000000000000000000").toList) = true := by
  constructor
  · decide
  · decide

/-- C10 (amended): `is_likely_contract` returns false for every input whose
body after an optional case-insensitive `0x` prefix fails the validator's
regex (40 hex characters, optionally followed by one trailing newline);
in particular the contract-pattern checks are never consulted for such
inputs. -/
theorem C10_invalid_address_never_contract (s : PyStr)
    (h : hexBody40 (ciStripBody s) = false) : is_likely_contract s = false := by
  by_cases hs : s = []
  · subst hs
    rfl
  · have hval : is_valid_ethereum_address (normalize_address s) = false := by
      rw [valid_normalize_eq_ciBody s hs, h]
    simp only [is_likely_contract, hval, Bool.not_false, Bool.or_true, if_true]

/-- C10 witness: a concrete invalid input classified as not-a-contract via
the amended theorem. -/
theorem C10_invalid_address_never_contract_witness :
    is_likely_contract (("hello").toList) = false :=
  C10_invalid_address_never_contract (("hello").toList) (by decide)

/-- C8 counterexample: `Decimal(25000)` is classified as round by the source
(25000 is in its `common_amounts` list) but satisfies none of the conditions
of the claim: its decimal string `25000` has only 3 trailing zeros, it is
not within 1/1000 of any magnitude of the 1-2-5 progression, its logarithm
is not within 1/1000 of an integer, and it has no trailing nines. -/
theorem C8_counterexample_25000 :
    is_round_number ⟨25000, 0⟩ = true ∧ spec_round_number_claimed ⟨25000, 0⟩ = false := by
  constructor
  · decide
  · decide

/-- C8 (amended): over the float-safe range, `is_round_number` returns true
exactly when the amount is positive and its decimal string ends in 5 or more
zeros, or it is within 1/1000 of one of the code's fixed magnitudes (the
1-2-5 progression plus 25000, minus 20000000 and 200000000), or its base-10
logarithm is within 1/1000 of an integer, or its decimal string ends in 4 or
more nines. -/
theorem C8_round_number_amended (a : Dec) (_h : floatSafe a = true) :
    is_round_number a = spec_round_number_amended a := by
  unfold is_round_number spec_round_number_amended Dec.isPos
  by_cases hc : a.c ≤ 0
  · rw [if_pos hc]
    have : (decide (0 < a.c)) = false := by
      simp only [decide_eq_false_iff_not]
      omega
    rw [this]
    rfl
  · rw [if_neg hc]
    have hpos : (decide (0 < a.c)) = true := by
      simp only [decide_eq_true_eq]
      omega
    rw [hpos, Bool.true_and]
    have hz : strEndsWith (decStr a) (['0', '0', '0', '0', '0', '0']) = true →
        strEndsWith (decStr a) (['0', '0', '0', '0', '0']) = true :=
      fun hx => strEndsWith_stronger (by decide) hx
    have hn : strEndsWith (decStr a) (['9', '9', '9', '9', '9']) = true →
        strEndsWith (decStr a) (['9', '9', '9', '9']) = true :=
      fun hx => strEndsWith_stronger (by decide) hx
    cases h6 : strEndsWith (decStr a) (['0', '0', '0', '0', '0', '0']) <;>
      cases h5 : strEndsWith (decStr a) (['0', '0', '0', '0', '0']) <;>
      cases hcm : common_amounts.any (fun m => nearIntThousandth a m) <;>
      cases hlg : log10NearIntDec a <;>
      cases h4 : strEndsWith (decStr a) (['9', '9', '9', '9']) <;>
      cases h9 : strEndsWith (decStr a) (['9', '9', '9', '9', '9']) <;>
      simp_all

/-- C8 witness: the amended equivalence applied at `Decimal(1000)` (round:
within the float-safe range, positive, and in the magnitude list). -/
theorem C8_round_number_amended_witness :
    is_round_number ⟨1000, 0⟩ = spec_round_number_amended ⟨1000, 0⟩ :=
  C8_round_number_amended ⟨1000, 0⟩ (by decide)

/-- C7 counterexample: scaling the 30-digit raw amount `10 ^ 29` with
`decimals = 1` does not truncate-and-return: the `quantize` step signals
`InvalidOperation` (coefficient `10 ^ 34` exceeds the context's 28 digits),
which the function's `except` clause does not catch, so it raises to the
caller instead of returning a value (refuting both the claimed value
equation and the claimed never-raises behaviour). -/
theorem C7_counterexample_quantize_raises :
    format_token_amount ⟨10 ^ 29, 0⟩ 1 = .exn := by decide

/-- Value of a decimal with exponent -6. -/
theorem Dec.toRat_neg6 (c : ℤ) : Dec.toRat ⟨c, -6⟩ = (c : ℚ) / 10 ^ 6 := by
  norm_num [Dec.toRat, Rat.divInt_eq_div]
  rw [show Int.toNat 6 = 6 from rfl]
  norm_num

/-- C7 (amended): with `decimals = 0` the amount is returned unchanged; for
positive `decimals`, provided the raw integer amount has at most 28 digits
and the scaled result stays below `10 ^ 22` (so that the 28-digit context
neither rounds the division nor overflows the `quantize` coefficient), the
result is exactly the raw amount divided by `10 ^ decimals`, truncated (not
rounded) to 6 fractional digits; outside that range the `quantize` step can
raise `decimal.InvalidOperation` to the caller. -/
theorem C7_scale_amended (a : Dec) (n d : ℕ) :
    format_token_amount a 0 = .ok a ∧
    (0 < d → n < 10 ^ 28 → n / 10 ^ d < 10 ^ 22 →
      format_token_amount ⟨(n : ℤ), 0⟩ d = .ok ⟨((n * 10 ^ 6 / 10 ^ d : ℕ) : ℤ), -6⟩ ∧
      (Dec.toRat ⟨((n * 10 ^ 6 / 10 ^ d : ℕ) : ℤ), -6⟩) = truncSixFrac ((n : ℚ) / 10 ^ d)) := by
  constructor
  · rfl
  · intro hd h28 h22
    have hn22 : n < 10 ^ 22 * 10 ^ d := (Nat.div_lt_iff_lt_mul (Nat.pos_pow_of_pos d (by norm_num))).mp h22
    have hcnew : n * 10 ^ 6 / 10 ^ d < 10 ^ 28 := by
      have hlt : n * 10 ^ 6 < 10 ^ 28 * 10 ^ d := by
        calc n * 10 ^ 6 < (10 ^ 22 * 10 ^ d) * 10 ^ 6 :=
              (Nat.mul_lt_mul_right (by norm_num)).mpr hn22
          _ = 10 ^ 28 * 10 ^ d := by ring
      exact (Nat.div_lt_iff_lt_mul (Nat.pos_pow_of_pos d (by norm_num))).mpr hlt
    have hdiv : divDecPow10 ⟨(n : ℤ), 0⟩ d = ⟨(n : ℤ), -(d : ℤ)⟩ := by
      unfold divDecPow10
      rw [if_pos (by simpa using h28)]
      simp
    have hquant : quantTrunc6 ⟨(n : ℤ), -(d : ℤ)⟩ =
        .ok ⟨((n * 10 ^ 6 / 10 ^ d : ℕ) : ℤ), -6⟩ := by
      unfold quantTrunc6
      by_cases hd6 : d ≤ 6
      · have he : (0 : ℤ) ≤ -(d : ℤ) + 6 := by omega
        rw [if_pos he]
        have htn : ((-(d : ℤ) + 6).toNat) = 6 - d := by omega
        rw [htn]
        have hcoef : (n : ℤ) * 10 ^ (6 - d) = ((n * 10 ^ 6 / 10 ^ d : ℕ) : ℤ) := by
          have hq : n * 10 ^ 6 / 10 ^ d = n * 10 ^ (6 - d) := by
            have hpow : (10 : ℕ) ^ 6 = 10 ^ (6 - d) * 10 ^ d := by
              rw [← pow_add]
              congr 1
              omega
            rw [hpow, ← Nat.mul_assoc, Nat.mul_div_cancel]
            positivity
          rw [hq]
          push_cast
          ring
        rw [hcoef, if_neg]
        have : ((n * 10 ^ 6 / 10 ^ d : ℕ) : ℤ).natAbs = n * 10 ^ 6 / 10 ^ d := Int.natAbs_ofNat _
        rw [this]
        omega
      · have he : ¬ (0 : ℤ) ≤ -(d : ℤ) + 6 := by omega
        rw [if_neg he]
        have htn : ((-(-(d : ℤ) + 6)).toNat) = d - 6 := by omega
        rw [htn]
        have hcoef : Int.tdiv (n : ℤ) (10 ^ (d - 6)) = ((n * 10 ^ 6 / 10 ^ d : ℕ) : ℤ) := by
          have hq : n * 10 ^ 6 / 10 ^ d = n / 10 ^ (d - 6) := by
            have hsplit : (10 : ℕ) ^ d = 10 ^ (d - 6) * 10 ^ 6 := by
              rw [← pow_add]
              congr 1
              omega
            rw [hsplit, Nat.mul_div_mul_right]
            positivity
          have hcast : ((10 : ℤ)) ^ (d - 6) = ((10 ^ (d - 6) : ℕ) : ℤ) := by
            push_cast
            ring
          rw [hq, hcast, ← Int.ofNat_tdiv]
        rw [hcoef, if_neg]
        have : ((n * 10 ^ 6 / 10 ^ d : ℕ) : ℤ).natAbs = n * 10 ^ 6 / 10 ^ d := Int.natAbs_ofNat _
        rw [this]
        omega
    constructor
    · unfold format_token_amount
      rw [if_neg (by omega), hdiv, hquant]
    · unfold truncSixFrac
      have hfl : ⌊(n : ℚ) / 10 ^ d * 10 ^ 6⌋₊ = n * 10 ^ 6 / 10 ^ d := by
        have harg : (n : ℚ) / 10 ^ d * 10 ^ 6 = ((n * 10 ^ 6 : ℕ) : ℚ) / ((10 ^ d : ℕ) : ℚ) := by
          push_cast
          ring
        rw [harg, Nat.floor_div_nat, Nat.floor_natCast]
      rw [hfl, Dec.toRat_neg6]
      simp only [Int.cast_natCast]

/-- C7 witness: 1234567 scaled by 7 decimals is truncated (not rounded) to
123.456789 → coefficient 123456790? no: value 0.1234567, truncated at 6
digits to 0.123456. -/
theorem C7_scale_amended_witness :
    format_token_amount ⟨(1234567 : ℕ), 0⟩ 7 =
        .ok ⟨((1234567 * 10 ^ 6 / 10 ^ 7 : ℕ) : ℤ), -6⟩ ∧
    Dec.toRat ⟨((1234567 * 10 ^ 6 / 10 ^ 7 : ℕ) : ℤ), -6⟩ =
        truncSixFrac ((1234567 : ℚ) / 10 ^ 7) :=
  (C7_scale_amended ⟨0, 0⟩ 1234567 7).2 (by decide) (by decide) (by decide)

/-- C6 counterexample: with `gas_price = "0"` — a non-positive gas price —
the function does not return `None`: the string `"0"` is truthy, so the
guard passes and the zero cost is returned as a value. -/
theorem C6_counterexample_zero_gas_price :
    estimate_transaction_cost_usd (some 21000) (some (("0").toList)) ⟨20000, -1⟩ =
      .ok (some ⟨0, -19⟩) := by decide

/-- C6 (amended): `estimate_transaction_cost_usd` returns `None` exactly when
`gas_used` is missing or zero, `gas_price` is missing or the empty string,
or the ETH price is non-positive; otherwise it returns
`wei_to_ether(gas_price) * gas_used * eth_price` (which need not be
positive: a gas price parsing to a non-positive number passes the guard). -/
theorem C6_cost_guard_and_product (gu : Option ℤ) (gp : Option PyStr) (eth : Dec) :
    (estimate_transaction_cost_usd gu gp eth = .ok none ↔
      gu = none ∨ gu = some 0 ∨ gp = none ∨ gp = some [] ∨ eth.c ≤ 0) ∧
    (∀ (m : ℤ) (s : PyStr) (q : Dec), gu = some m → ¬ m = 0 → gp = some s → ¬ s = [] →
      0 < eth.c → wei_to_ether s = .ok q →
      estimate_transaction_cost_usd gu gp eth = .ok (some ((q.mul ⟨m, 0⟩).mul eth))) := by
  constructor
  · unfold estimate_transaction_cost_usd
    rcases gu with _ | m <;> rcases gp with _ | s
    · simp
    · simp
    · simp
    · by_cases hm : m = 0
      · subst hm
        simp
      · by_cases hs : s = []
        · subst hs
          simp [hm]
        · by_cases he : eth.c ≤ 0
          · simp [hm, hs, he]
          · have hg : ((m == 0) || (s == []) || decide (eth.c ≤ 0)) = false := by
              simp [hm, hs, he]
            simp only [hg, Bool.false_eq_true, if_false]
            cases hw : wei_to_ether s <;> simp [hm, hs, he]
  · intro m s q hgu hm hgp hs he hw
    subst hgu
    subst hgp
    unfold estimate_transaction_cost_usd
    have hg : ((m == 0) || (s == []) || decide (eth.c ≤ 0)) = false := by
      simp [hm, hs]
      omega
    simp only [hg, Bool.false_eq_true, if_false, hw]

/-- C6 witness: the spec's example — 21000 gas at 20 gwei with ETH at
2000.0 USD — passes the guard and yields the positive product
0.00042 ETH × 2000 = 0.84 USD. -/
theorem C6_cost_guard_and_product_witness :
    estimate_transaction_cost_usd (some 21000) (some (("20000000000").toList)) ⟨20000, -1⟩ =
      .ok (some ((Dec.mul (Dec.mul ⟨20000000000, -18⟩ ⟨21000, 0⟩) ⟨20000, -1⟩))) ∧
    (0 : ℤ) < ((Dec.mul (Dec.mul ⟨20000000000, -18⟩ ⟨21000, 0⟩) ⟨20000, -1⟩)).c :=
  ⟨(C6_cost_guard_and_product (some 21000) (some (("20000000000").toList)) ⟨20000, -1⟩).2
      21000 (("20000000000").toList) ⟨20000000000, -18⟩ rfl (by decide) rfl (by decide)
      (by decide) (by decide),
   by decide⟩

/-- C4: each parsed record emits exactly one inbound record under its `to`
wallet, and emits under its `from` wallet exactly one outbound record —
carrying the same transaction hash, block number, timestamp, token amount,
raw amount and gas fields, with `wallet_address` set to the sender —
precisely when the sender does not satisfy `is_likely_contract`. -/
theorem C4_grouper_per_record (tx : WalletTransaction) :
    ((walletEmits tx).filter (fun kv =>
        kv.1 == tx.to_address && kv.2.direction == Direction.din)).length = 1 ∧
    ((walletEmits tx).filter (fun kv =>
        kv.1 == tx.from_address && kv.2.direction == Direction.dout) =
      [(tx.from_address,
        { wallet_address := tx.from_address, tx_hash := tx.tx_hash,
          block_number := tx.block_number, timestamp := tx.timestamp,
          token_amount := tx.token_amount, token_amount_raw := tx.token_amount_raw,
          direction := Direction.dout, from_address := tx.from_address,
          to_address := tx.to_address, gas_used := tx.gas_used,
          gas_price := tx.gas_price })] ↔
      ¬ is_likely_contract tx.from_address = true) := by
  by_cases h : is_likely_contract tx.from_address
  · constructor
    · simp [walletEmits, recipientCopy, h]
    · simp [walletEmits, recipientCopy, h]
  · constructor
    · simp [walletEmits, recipientCopy, senderCopy, h]
    · simp [walletEmits, recipientCopy, senderCopy, h]

/-- C2: whenever utils.analyze_wallet_transactions returns a summary, the
`is_likely_buyer` and `is_likely_airdrop` flags are never both true (the
buyer flag is conjoined with the negation of the airdrop flag). -/
theorem C2_flags_mutually_exclusive (w : PyStr) (txs : List WalletTransaction)
    (cfg : Option Config) (r : WalletAnalysis)
    (h : analyze_wallet_transactions w txs cfg = some r) :
    ¬(r.is_likely_buyer = true ∧ r.is_likely_airdrop = true) := by
  rintro ⟨hb, ha⟩
  simp only [analyze_wallet_transactions] at h
  split at h
  · exact Option.noConfusion h
  · split at h
    · exact Option.noConfusion h
    · split at h
      · exact Option.noConfusion h
      · rw [← Option.some.inj h] at hb ha
        simp only at hb ha
        simp only [ha, Bool.not_true, Bool.false_and] at hb
        exact Bool.noConfusion hb

/-- Transaction used in the C2 witness: a single inbound transfer of 3
tokens from a non-contract address. -/
def c2tx : WalletTransaction :=
  ⟨eoaAddrA, ("h1").toList, 100, 1000, ⟨3, 0⟩, ("3").toList, .din, eoaAddrB,
   eoaAddrA, none, none⟩

/-- Summary the analyzer produces for the C2 witness transaction. -/
def c2res : WalletAnalysis :=
  ⟨eoaAddrA, c2tx, ⟨3, 0⟩, ⟨0, 0⟩, ⟨3, 0⟩, 1, none, true, false⟩

/-- C2 witness: a concrete analyzer run whose summary has exclusive flags. -/
theorem C2_flags_mutually_exclusive_witness :
    analyze_wallet_transactions eoaAddrA [c2tx] none = some c2res ∧
    ¬(c2res.is_likely_buyer = true ∧ c2res.is_likely_airdrop = true) :=
  ⟨by decide, C2_flags_mutually_exclusive eoaAddrA [c2tx] none c2res (by decide)⟩

/-- C3: for a wallet whose record list is exactly one inbound record from a
likely contract with a round total received, any summary the analyzer
returns has `is_likely_airdrop = true` and `is_likely_buyer = false`. -/
theorem C3_single_round_contract_transfer_is_airdrop (w : PyStr)
    (t : WalletTransaction) (cfg : Option Config) (r : WalletAnalysis)
    (h : analyze_wallet_transactions w [t] cfg = some r)
    (hdir : t.direction = Direction.din)
    (hcon : is_likely_contract t.from_address = true)
    (hround : is_round_number r.total_received = true) :
    r.is_likely_airdrop = true ∧ r.is_likely_buyer = false := by
  simp only [analyze_wallet_transactions, List.insertionSort, List.orderedInsert,
    List.foldl, hdir] at h
  rcases cfg with _ | cfg2 <;>
    (split at h
     case isTrue => exact Option.noConfusion h
     case isFalse =>
       split at h
       case isTrue => exact Option.noConfusion h
       case isFalse =>
         rw [← Option.some.inj h] at hround ⊢
         simp only at hround ⊢
         simp only [hcon, hround, hdir]
         simp)

/-- Transaction used in the C3 witness: a single inbound transfer of exactly
1000 tokens from the Uniswap V2 router (a listed DEX address). -/
def c3tx : WalletTransaction :=
  ⟨eoaAddrA, ("h1").toList, 100, 1000, ⟨1000, 0⟩, ("1000").toList, .din,
   uniswapRouter, eoaAddrA, none, none⟩

/-- Summary the analyzer produces for the C3 witness transaction. -/
def c3res : WalletAnalysis :=
  ⟨eoaAddrA, c3tx, ⟨1000, 0⟩, ⟨0, 0⟩, ⟨1000, 0⟩, 1, none, false, true⟩

/-- C3 witness: a single inbound transfer of exactly 1000 tokens from a
listed DEX address, with no other transfers, classifies as airdrop and not
buyer. -/
theorem C3_single_round_contract_transfer_is_airdrop_witness :
    analyze_wallet_transactions eoaAddrA [c3tx] none = some c3res ∧
    c3res.is_likely_airdrop = true ∧ c3res.is_likely_buyer = false :=
  ⟨by decide,
   C3_single_round_contract_transfer_is_airdrop eoaAddrA c3tx none c3res
     (by decide) (by decide) (by decide) (by decide)⟩

/-- C1 (amended): every successful analysis run returns an
`earliest_wallets` list sorted ascending by the first transaction's block
number and of length at most the configured maximum.  (The third part of
the claim fails: the wallet loop stops analyzing after the first
`max_early_wallets` qualifying wallets in grouping order, so a qualifying
wallet it never reaches can have an earlier first transaction than every
reported wallet — see the counterexample.) -/
theorem C1_report_sorted_and_capped (raws : List RawTx) (decimals : ℕ) (eth : Dec)
    (cfg : Config) (rep : TokenAnalysis)
    (h : analyze_token_interactions raws decimals eth cfg = .ok rep) :
    List.Sorted waLe rep.earliest_wallets ∧
    rep.earliest_wallets.length ≤ cfg.max_early_wallets := by
  simp only [analyze_token_interactions] at h
  split at h
  · rw [← PyRes.ok.inj h]
    exact ⟨List.sorted_nil, Nat.zero_le _⟩
  · split at h
    · exact PyRes.noConfusion h
    · split at h
      · exact PyRes.noConfusion h
      · rw [← PyRes.ok.inj h]
        exact ⟨List.Pairwise.sublist (List.take_sublist _ _)
                 (List.sorted_insertionSort waLe _),
               List.length_take_le _ _⟩

/-- C1 counterexample: in the `c1raws` run (wallet A at block 100 fetched
first, wallet B at block 50 fetched second, both qualifying, maximum one
wallet), the loop keeps wallet A and never analyzes wallet B, so the
excluded qualifying wallet B has a strictly earlier first transaction than
the reported wallet A — the run violates the claimed exclusion property. -/
theorem C1_counterexample_truncation_not_earliest :
    report_keeps_earliest c1raws 0 ⟨0, 0⟩ c1cfg = false := by decide

/-- C1 witness: the amended theorem applied to the empty run. -/
theorem C1_report_sorted_and_capped_witness :
    List.Sorted waLe (TokenAnalysis.mk 0 0 []).earliest_wallets ∧
    (TokenAnalysis.mk 0 0 []).earliest_wallets.length ≤ c1cfg.max_early_wallets :=
  C1_report_sorted_and_capped [] 0 ⟨0, 0⟩ c1cfg ⟨0, 0, []⟩ rfl

/-- One grouping step preserves the allocation invariant: the store only
grows, emitted addresses stay at least `n0`, below the store length, and
pairwise distinct. -/
theorem groupStep_inv (n0 : ℕ) (st : GroupSt) (tx : WalletTransaction)
    (h1 : n0 ≤ st.store.length)
    (h2 : (st.ems.map Prod.snd).Nodup)
    (h3 : ∀ x ∈ st.ems.map Prod.snd, n0 ≤ x ∧ x < st.store.length) :
    n0 ≤ (groupStep st tx).store.length ∧
    ((groupStep st tx).ems.map Prod.snd).Nodup ∧
    ∀ x ∈ (groupStep st tx).ems.map Prod.snd,
      n0 ≤ x ∧ x < (groupStep st tx).store.length := by
  unfold groupStep
  by_cases hc : is_likely_contract tx.from_address = true
  · rw [if_pos hc]
    simp only [List.map_append, List.map_cons, List.map_nil, List.length_append,
      List.length_cons, List.length_nil]
    refine ⟨by omega, ?_, ?_⟩
    · rw [List.nodup_append]
      refine ⟨h2, List.nodup_singleton _, ?_⟩
      intro x hx hmem
      rcases List.mem_singleton.mp hmem with rfl
      exact absurd (h3 _ hx).2 (lt_irrefl _)
    · intro x hx
      rcases List.mem_append.mp hx with hold | hnew
      · have := h3 x hold
        omega
      · rcases List.mem_singleton.mp hnew with rfl
        omega
  · rw [if_neg hc]
    simp only [List.map_append, List.map_cons, List.map_nil, List.length_append,
      List.length_cons, List.length_nil]
    refine ⟨by omega, ?_, ?_⟩
    · rw [List.nodup_append, List.nodup_append]
      refine ⟨⟨h2, List.nodup_singleton _, ?_⟩, List.nodup_singleton _, ?_⟩
      · intro x hx hmem
        rcases List.mem_singleton.mp hmem with rfl
        exact absurd (h3 _ hx).2 (lt_irrefl _)
      · intro x hx hmem
        rcases List.mem_singleton.mp hmem with rfl
        rcases List.mem_append.mp hx with hold | hnew
        · have := (h3 _ hold).2
          omega
        · rcases List.mem_singleton.mp hnew with h
          omega
    · intro x hx
      rcases List.mem_append.mp hx with hx2 | hnew2
      · rcases List.mem_append.mp hx2 with hold | hnew
        · have := h3 x hold
          omega
        · rcases List.mem_singleton.mp hnew with rfl
          omega
      · rcases List.mem_singleton.mp hnew2 with h
        omega

/-- The grouping fold preserves the allocation invariant from any starting
state. -/
theorem groupFold_inv (l : List WalletTransaction) (st : GroupSt) (n0 : ℕ)
    (h1 : n0 ≤ st.store.length)
    (h2 : (st.ems.map Prod.snd).Nodup)
    (h3 : ∀ x ∈ st.ems.map Prod.snd, n0 ≤ x ∧ x < st.store.length) :
    n0 ≤ (l.foldl groupStep st).store.length ∧
    ((l.foldl groupStep st).ems.map Prod.snd).Nodup ∧
    ∀ x ∈ (l.foldl groupStep st).ems.map Prod.snd,
      n0 ≤ x ∧ x < (l.foldl groupStep st).store.length := by
  induction l generalizing st with
  | nil => exact ⟨h1, h2, h3⟩
  | cons tx rest ih =>
    obtain ⟨g1, g2, g3⟩ := groupStep_inv n0 st tx h1 h2 h3
    exact ih (groupStep st tx) g1 g2 g3

/-- C5: grouping never aliases.  In the heap model every emitted record
lives at a fresh address — the emitted addresses are pairwise distinct and
disjoint from the input records' addresses `0 .. txs.length - 1` — so
overwriting (mutating) the record at one emitted address leaves the record
at any other emitted address, and every original parsed record, unchanged. -/
theorem C5_grouping_no_aliasing (txs : List WalletTransaction) (i j : ℕ)
    (v : WalletTransaction)
    (hi : i ∈ (group_transactions_with_store txs).ems.map Prod.snd)
    (_hj : j ∈ (group_transactions_with_store txs).ems.map Prod.snd ∨ j < txs.length)
    (hij : i ≠ j) :
    ((group_transactions_with_store txs).ems.map Prod.snd).Nodup ∧
    txs.length ≤ i ∧
    ((group_transactions_with_store txs).store.set i v)[j]? =
      (group_transactions_with_store txs).store[j]? := by
  have hinv := groupFold_inv txs ⟨txs, []⟩ txs.length (le_refl _) (by simp) (by simp)
  exact ⟨hinv.2.1, (hinv.2.2 i hi).1, List.getElem?_set_ne hij⟩

/-- Transaction used in the C5 witness (sender is a router, so only the
recipient copy is emitted, at address 1 of the heap). -/
def c5tx : WalletTransaction :=
  ⟨eoaAddrA, ("h5").toList, 7, 1000, ⟨2, 0⟩, ("2").toList, .din, uniswapRouter,
   eoaAddrA, none, none⟩

/-- A mutated version of the C5 witness record. -/
def c5mut : WalletTransaction := { c5tx with token_amount := ⟨9, 0⟩ }

/-- C5 witness: overwriting the emitted copy (address 1) leaves the original
parsed record (address 0) unchanged. -/
theorem C5_grouping_no_aliasing_witness :
    ((group_transactions_with_store [c5tx]).ems.map Prod.snd).Nodup ∧
    [c5tx].length ≤ 1 ∧
    ((group_transactions_with_store [c5tx]).store.set 1 c5mut)[0]? =
      (group_transactions_with_store [c5tx]).store[0]? :=
  C5_grouping_no_aliasing [c5tx] 1 0 c5mut (by decide) (Or.inr (by decide)) (by decide)
